import Mathlib

/-!
Verification development for the report-generation service in `main.py`.

The image-resolution core of the program is shallowly embedded below:

* Pure string manipulation (lowercasing, `str.replace`, `re.sub` character
  filters, `str.split`, slicing, percent-decoding) is translated to total
  functions over `List Char` / `String`.
* The blob store is modelled as a value: a listing is a `List String` of blob
  names, and byte retrieval is a function `String → Option (List Nat)` where
  `none` covers both a missing blob and a download failure (the Python code
  catches every exception in `download_image_from_storage` and returns `None`,
  so failure and absence are observationally identical to callers).
* `fnmatch.fnmatch` is modelled for patterns made of literal characters and
  the wildcards `*` / `?` (the patterns the program generates contain no
  bracket classes); on POSIX `fnmatch.fnmatch` normalizes with the identity,
  so the match is case-sensitive, anchored at both ends.
* Python truthiness tests on optional strings (`if not x`) are modelled by
  `Option String` inputs together with an emptiness test.
* Calls to `storage_client.list_blobs` are modelled by recording the requested
  prefix in a log, so that call counts become provable facts.
-/

/-- ASCII lowercasing of a string, modelling Python `str.lower()` on the
ASCII inputs the program handles. -/
def lowerStr (s : String) : String := ⟨s.data.map Char.toLower⟩

/-- One step of the last-path-segment scan: a `/` resets the accumulator. -/
def lastSegStep (acc : List Char) (c : Char) : List Char :=
  if c = '/' then [] else acc ++ [c]

/-- The last `/`-separated segment of a character list, modelling Python
`s.split('/')[-1]` (the whole string when no separator occurs). -/
def lastSeg (l : List Char) : List Char := l.foldl lastSegStep []

/-- Bounded glob matching: fuel-indexed structural recursion implementing the
usual anchored glob semantics (`*` matches any run, `?` one character, other
characters literally).  Every recursive call strictly decreases
`pattern.length + name.length`, so fuel `pattern.length + name.length + 1`
(as used in `fnmatchB`) never runs out and the `0` case is unreachable. -/
def globMatch : Nat → List Char → List Char → Bool
  | 0, _, _ => false
  | _ + 1, [], [] => true
  | _ + 1, [], _ :: _ => false
  | f + 1, '*' :: ps, [] => globMatch f ps []
  | f + 1, '*' :: ps, n :: ns =>
      globMatch f ps (n :: ns) || globMatch f ('*' :: ps) ns
  | f + 1, '?' :: ps, _ :: ns => globMatch f ps ns
  | f + 1, p :: ps, n :: ns => p == n && globMatch f ps ns
  | _ + 1, _ :: _, [] => false

/-- Model of `fnmatch.fnmatch(name, pattern)` on POSIX for the wildcard
patterns the program generates (no bracket classes): anchored, case-sensitive
glob matching of the whole `name` against `pattern`. -/
def fnmatchB (nm pat : List Char) : Bool :=
  globMatch (pat.length + nm.length + 1) pat nm

/-- The per-blob test of the student matcher, from `main.py` lines 71-72:
`filename = blob.name.lower().split('/')[-1]` followed by
`fnmatch.fnmatch(filename, pattern)`. -/
def studentMatches (blobName pat : String) : Bool :=
  fnmatchB (lastSeg (blobName.data.map Char.toLower)) pat.data

/-- The matcher loop of `get_student_image_path` (`main.py` lines 69-77):
iterate candidate patterns in order and, for each pattern, iterate blob names
in listing order, returning the first blob name whose lowered base filename
matches the current pattern. -/
def findFirstMatch : List String → List String → Option String
  | [], _ => none
  | p :: ps, blobs =>
      match blobs.find? (fun b => studentMatches b p) with
      | some b => some b
      | none => findFirstMatch ps blobs

/-- Helper for whitespace splitting: accumulate the current word (reversed). -/
def wordsAux : List Char → List Char → List String
  | [], acc => if acc.isEmpty then [] else [⟨acc.reverse⟩]
  | c :: cs, acc =>
      if c.isWhitespace then
        if acc.isEmpty then wordsAux cs [] else ⟨acc.reverse⟩ :: wordsAux cs []
      else wordsAux cs (c :: acc)

/-- Model of Python `str.split()` with no argument: split on runs of
whitespace, discarding empty pieces. -/
def words (s : String) : List String := wordsAux s.data []

/-- Model of `re.sub(r'[^a-z]', '', s)`: keep only lowercase ASCII letters. -/
def stripNonLowerAlpha (l : List Char) : List Char :=
  l.filter (fun c => decide ('a' ≤ c) && decide (c ≤ 'z'))

/-- The candidate pattern sequence of `get_student_image_path`
(`main.py` lines 49-67): `clean_name` is the lowercased name with spaces
replaced by underscores, `first_name`/`last_name` come from whitespace
splitting, the conditional entries are empty strings when there is no last
name, and the final step filters out empty strings (Python
`[p for p in patterns_to_try if p]`). -/
def patterns_to_try (student_name : String) : List String :=
  let clean_name : String :=
    ⟨(student_name.data.map Char.toLower).map (fun c => if c = ' ' then '_' else c)⟩
  let name_parts := words student_name
  let first_name : String := match name_parts with
    | [] => ""
    | p :: _ => lowerStr p
  let last_name : String :=
    if name_parts.length > 1 then lowerStr (name_parts.getLastD "") else ""
  ([ "*" ++ clean_name ++ "*",
     if last_name ≠ "" then "*" ++ first_name ++ "_" ++ last_name ++ "*" else "",
     "*" ++ first_name ++ "*",
     if last_name ≠ "" then "*" ++ first_name ++ "*" ++ last_name ++ "*" else "",
     if last_name ≠ "" then "*" ++ last_name ++ "*" ++ first_name ++ "*" else "",
     "*" ++ first_name ++ "*",
     "*" ++ (⟨stripNonLowerAlpha first_name.data⟩ : String) ++ "*",
     "*" ++ (⟨stripNonLowerAlpha clean_name.data⟩ : String) ++ "*" ] : List String
  ).filter (fun p => p != "")

/-- `get_student_image_path` (`main.py` lines 44-77) as a function of the
`students/` listing: a falsy name short-circuits to `None`; otherwise the
candidate patterns are run through the matcher loop against the listing. -/
def get_student_image_path (blobs : List String) (student_name : String) :
    Option String :=
  if student_name = "" then none
  else findFirstMatch (patterns_to_try student_name) blobs

/-- A pattern is wildcard-only when it is nonempty and consists solely of
`*` characters, hence matches every filename. -/
def WildcardOnly (p : String) : Prop :=
  p.data ≠ [] ∧ ∀ c ∈ p.data, c = '*'

instance (p : String) : Decidable (WildcardOnly p) := by
  unfold WildcardOnly; infer_instance

/-- A student record as consumed by the team-photos loop: `main.py` line 416
reads `student.get('name', 'Unknown')`, so the name field is optional with
default value `"Unknown"`. -/
structure Student where
  name : Option String

/-- Instrumented `get_student_image_path` (`main.py` lines 44-77): alongside
the result it records one `"students/"` entry for the single
`storage_client.list_blobs(bucket, prefix="students/")` call at line 54,
which is reached exactly when the student name is truthy. -/
def student_resolve_with_log (store : List String) (nm : String) :
    Option String × List String :=
  if nm = "" then (none, [])
  else (findFirstMatch (patterns_to_try nm) store, ["students/"])

/-- The `students/`-listing call log of the team-photos loop of
`create_professional_docx` (`main.py` lines 409-421): each student in the
batch is resolved via `get_student_image_path(student.get('name', 'Unknown'))`
and the listing calls it performs are concatenated in batch order. -/
def team_photos_listing_log (store : List String) : List Student → List String
  | [] => []
  | s :: rest =>
      (student_resolve_with_log store (s.name.getD "Unknown")).2
        ++ team_photos_listing_log store rest

/-- Model of `clean_filename` (`main.py` lines 38-42): falsy input (absent or
empty) yields the sentinel `"unknown"`; otherwise
`re.sub(r'[^a-zA-Z0-9_.-]', '', filename)` keeps only ASCII alphanumerics,
underscore, dot and hyphen. -/
def clean_filename (filename : Option String) : String :=
  match filename with
  | none => "unknown"
  | some s =>
      if s = "" then "unknown"
      else ⟨s.data.filter
        (fun c => c.isAlphanum || c == '_' || c == '.' || c == '-')⟩

/-- Model of `sanitize_filename_for_storage` (`main.py` lines 32-36): falsy
input yields `"unknown"`; otherwise `email.replace('@', '_at_')` followed by
`.replace('.', '_')`, as two sequential passes. -/
def sanitize_filename_for_storage (email : Option String) : String :=
  match email with
  | none => "unknown"
  | some s =>
      if s = "" then "unknown"
      else ⟨(s.data.flatMap (fun c => if c = '@' then "_at_".data else [c])).map
              (fun c => if c = '.' then '_' else c)⟩

/-- Project image bytes are modelled as lists of numbers. -/
abbrev Bytes := List Nat

/-- The blob store's byte-retrieval capability: `none` covers both a missing
blob and a failed download, which `download_image_from_storage` makes
indistinguishable by catching every exception. -/
abbrev BlobStore := String → Option Bytes

/-- Model of `download_image_from_storage` (`main.py` lines 137-153): a falsy
path yields `None`; a missing blob or any storage error yields `None`
(caught at line 151); otherwise the blob's bytes are returned. -/
def download_image_from_storage (store : BlobStore) (image_path : String) :
    Option Bytes :=
  if image_path = "" then none else store image_path

/-- A project record as consumed by `get_project_image`: optional id, title
and explicit image URL (`project_data.get(...)` accesses). -/
structure ProjectData where
  id : Option String
  title : Option String
  imageUrl : Option String

/-- The suffix after the last non-overlapping occurrence of `/o/`, or `none`
when `/o/` does not occur. -/
def afterO : List Char → Option (List Char)
  | [] => none
  | '/' :: 'o' :: '/' :: rest => some ((afterO rest).getD rest)
  | _ :: cs => afterO cs

/-- Model of Python `url.split('/o/')[-1]`: the suffix after the last
occurrence of `/o/`, or the whole string when it does not occur. -/
def afterLastO (l : List Char) : List Char := (afterO l).getD l

/-- Replace every non-overlapping occurrence of the three-character sequence
`a b c` by the single character `r`, left to right, modelling Python
`str.replace` for the three-character needles `%2F` and `%20`. -/
def replaceSeq3 (a b c r : Char) : List Char → List Char
  | x :: y :: z :: rest =>
      if x = a ∧ y = b ∧ z = c then r :: replaceSeq3 a b c r rest
      else x :: replaceSeq3 a b c r (y :: z :: rest)
  | l => l

/-- The value of a hexadecimal digit character, if it is one. -/
def hexVal (c : Char) : Option Nat :=
  if '0' ≤ c ∧ c ≤ '9' then some (c.toNat - '0'.toNat)
  else if 'a' ≤ c ∧ c ≤ 'f' then some (c.toNat - 'a'.toNat + 10)
  else if 'A' ≤ c ∧ c ≤ 'F' then some (c.toNat - 'A'.toNat + 10)
  else none

/-- Single-pass percent-decoding, modelling `requests.utils.unquote` (that
is, `urllib.parse.unquote`) on ASCII percent-escapes: each valid `%XY` is
decoded once, anything else is kept literally. -/
def unquoteL : List Char → List Char
  | '%' :: x :: y :: rest =>
      match hexVal x, hexVal y with
      | some hx, some hy => Char.ofNat (16 * hx + hy) :: unquoteL rest
      | _, _ => '%' :: unquoteL (x :: y :: rest)
  | c :: cs => c :: unquoteL cs
  | [] => []

/-- The first decode pass of `get_project_image` (`main.py` lines 87-88):
`imageUrl.split('/o/')[-1].split('?')[0]` then
`.replace('%2F', '/').replace('%20', ' ')`. -/
def image_path_from_url (url : String) : String :=
  ⟨replaceSeq3 '%' '2' '0' ' '
    (replaceSeq3 '%' '2' 'F' '/'
      ((afterLastO url.data).takeWhile (fun c => c != '?')))⟩

/-- The explicit-image-reference branch of `get_project_image`
(`main.py` lines 85-101): when the project carries a truthy `imageUrl`, run
the first decode pass and attempt retrieval; on failure apply one full
percent-decoding pass and, if it changed the path, retry retrieval once. -/
def project_url_attempt (store : BlobStore) (pd : ProjectData) : Option Bytes :=
  match pd.imageUrl with
  | none => none
  | some url =>
      if url = "" then none
      else
        let ip := image_path_from_url url
        match download_image_from_storage store ip with
        | some s => some s
        | none =>
            let decoded : String := ⟨unquoteL ip.data⟩
            if decoded ≠ ip then download_image_from_storage store decoded
            else none

/-- Model of Python slicing `s[:10]`: the first ten characters. -/
def take10 (s : String) : String := ⟨s.data.take 10⟩

/-- The candidate pattern list of `get_project_image`
(`main.py` lines 103-117), most to least specific, ending in the three
legacy literal filenames. -/
def project_patterns (pd : ProjectData) : List String :=
  let project_id := pd.id.getD "unknown"
  let project_title := clean_filename (some (pd.title.getD "unknown"))
  let original_title := pd.title.getD "unknown"
  [ "projects/" ++ project_id ++ ".jpg",
    "projects/" ++ project_id ++ ".png",
    "projects/project_" ++ project_id ++ ".jpg",
    "projects/project_" ++ project_id ++ ".png",
    "projects/" ++ project_title ++ ".jpg",
    "projects/" ++ project_title ++ ".png",
    "projects/" ++ original_title ++ ".jpg",
    "projects/" ++ original_title ++ ".png",
    "projects/*" ++ take10 project_title ++ "*.jpg",
    "projects/*" ++ take10 project_title ++ "*.png",
    "projects/dec cap vale.png",
    "projects/IOTbasedRealTimeApp.jpg",
    "projects/Scratch.png" ]

/-- The wildcard branch of the pattern loop (`main.py` lines 121-127): scan
the `projects/` listing in order, and for each blob whose FULL storage name
matches the pattern attempt a download, continuing past failed downloads. -/
def wildcard_scan (store : BlobStore) (pat : String) :
    List String → Option Bytes
  | [] => none
  | b :: bs =>
      if fnmatchB b.data pat.data then
        match download_image_from_storage store b with
        | some s => some s
        | none => wildcard_scan store pat bs
      else wildcard_scan store pat bs

/-- One iteration of the pattern loop (`main.py` lines 119-132): patterns
containing `*` go through the wildcard scan of the listing; the others are
tried as direct storage paths. -/
def try_pattern (store : BlobStore) (listing : List String) (pat : String) :
    Option Bytes :=
  if pat.data.contains '*' then wildcard_scan store pat listing
  else download_image_from_storage store pat

/-- The pattern loop of `get_project_image`: try each candidate in order,
stopping at the first successful retrieval. -/
def try_patterns (store : BlobStore) (listing : List String) :
    List String → Option Bytes
  | [] => none
  | p :: ps =>
      match try_pattern store listing p with
      | some s => some s
      | none => try_patterns store listing ps

/-- `get_project_image` (`main.py` lines 79-135) as a function of the store
and the `projects/` listing: explicit URL branch, then the pattern loop,
then the fixed default asset `projects/default_project.jpg`. -/
def get_project_image (store : BlobStore) (listing : List String)
    (pd : ProjectData) : Option Bytes :=
  match project_url_attempt store pd with
  | some s => some s
  | none =>
      match try_patterns store listing (project_patterns pd) with
      | some s => some s
      | none => download_image_from_storage store "projects/default_project.jpg"

/-- The scaling computation of `resize_image_for_docx`
(`main.py` lines 155-179) over exact rationals: aspect ratio `w / h`, a
landscape/portrait initial fit, then two sequential clamping steps.  The
Python body divides by `height` when computing the aspect ratio; a zero
height raises `ZeroDivisionError`, which the surrounding `except` turns into
the fixed fallback `(1.5, 1.5)` — modelled by the leading guard. -/
def resize_image_for_docx (w h max_width max_height : ℚ) : ℚ × ℚ :=
  if h = 0 then (3 / 2, 3 / 2)
  else
    let aspect := w / h
    let nw0 : ℚ := if h < w then min max_width (w / 100)
                   else (min max_height (h / 100)) * aspect
    let nh0 : ℚ := if h < w then (min max_width (w / 100)) / aspect
                   else min max_height (h / 100)
    let nw1 : ℚ := if max_width < nw0 then max_width else nw0
    let nh1 : ℚ := if max_width < nw0 then max_width / aspect else nh0
    let nw2 : ℚ := if max_height < nh1 then max_height * aspect else nw1
    let nh2 : ℚ := if max_height < nh1 then max_height else nh1
    (nw2, nh2)

/-- Modelled from the spec for the refinement check of the project wildcard
step: the spec's Pattern Matcher compares each pattern case-insensitively
against the blob's BASE filename only (`§4.2`), so this variant of
`wildcard_scan` lowercases both sides and takes the last path segment of the
blob name before glob matching.  It exists only to be compared with
`wildcard_scan`, which embeds the source. -/
def spec_base_ci_scan (store : BlobStore) (pat : String) :
    List String → Option Bytes
  | [] => none
  | b :: bs =>
      if fnmatchB (lastSeg (lowerStr b).data) (lowerStr pat).data then
        match download_image_from_storage store b with
        | some s => some s
        | none => spec_base_ci_scan store pat bs
      else spec_base_ci_scan store pat bs

/-- Concrete store holding one project image with a mixed-case name. -/
def store_c3 : BlobStore :=
  fun p => if p = "projects/RoboticsLab.jpg" then some [3] else none

/-- Concrete store holding the raw (fully decoded) form of a project image
whose explicit reference is double-URL-encoded. -/
def store_c7a : BlobStore :=
  fun p => if p = "projects/my img.jpg" then some [7] else none

/-- Concrete project whose explicit image reference is double-URL-encoded
(`%252F` / `%2520`). -/
def pd_c7a : ProjectData :=
  ⟨some "pa", some "Ta",
   some "https://firebasestorage.googleapis.com/v0/b/bkt/o/projects%252Fmy%2520img.jpg?alt=media"⟩

/-- Concrete store whose blob name itself contains the literal escape
`%20`, as happens when an asset was uploaded under an encoded name. -/
def store_c7b : BlobStore :=
  fun p => if p = "projects/my%20img.jpg" then some [9] else none

/-- Concrete project whose explicit image reference encodes the blob of
`store_c7b`: the separator once (`%2F`) and the blob's literal `%20` as
`%2520`. -/
def pd_c7b : ProjectData :=
  ⟨some "pb", some "Tb",
   some "https://firebasestorage.googleapis.com/v0/b/bkt/o/projects%2Fmy%2520img.jpg?alt=media"⟩

/-- Concrete store holding only the default project asset. -/
def store_c8 : BlobStore :=
  fun p => if p = "projects/default_project.jpg" then some [1] else none

/-- Concrete project with no explicit image reference. -/
def pd_c8 : ProjectData := ⟨some "p1", some "T", none⟩

/-- A string of the shape `(a ++ s) ++ t` where `a` contains the letter `p`
is never wildcard-only. -/
theorem not_wildcardOnly_of_p (a s t : String) (h : 'p' ∈ a.data) :
    ¬ WildcardOnly ((a ++ s) ++ t) := by
  intro hw
  have hmem : 'p' ∈ ((a ++ s) ++ t).data := by
    rw [String.data_append, String.data_append]
    exact List.mem_append_left _ (List.mem_append_left _ h)
  have hp := hw.2 'p' hmem
  exact absurd hp (by decide)

/-- C1: the pattern matcher is order-sensitive with pattern order dominating
blob order: when no pattern of the initial segment `ps1` matches any blob of
the listing and the first blob (in listing order) matching pattern `p` is
`b`, the matcher run on `ps1 ++ p :: ps2` returns `b` — the first pattern
satisfied by any blob wins, regardless of later patterns and of blob
listing positions. -/
theorem student_matcher_pattern_order (ps1 : List String) (p : String)
    (ps2 : List String) (blobs : List String) (b : String)
    (h1 : ∀ q ∈ ps1, ∀ bl ∈ blobs, studentMatches bl q = false)
    (h2 : blobs.find? (fun bl => studentMatches bl p) = some b) :
    findFirstMatch (ps1 ++ p :: ps2) blobs = some b := by
  induction ps1 with
  | nil => simp only [List.nil_append, findFirstMatch, h2]
  | cons q qs ih =>
    have hq : blobs.find? (fun bl => studentMatches bl q) = none := by
      rw [List.find?_eq_none]
      intro x hx
      simp [h1 q (List.mem_cons_self q qs) x hx]
    simp only [List.cons_append, findFirstMatch, hq]
    exact ih (fun r hr bl hbl => h1 r (List.mem_cons_of_mem q hr) bl hbl)

/-- Witness for C1, the spec's own example: patterns `[*alice*, *bob*]`
against the listing `[bob.jpg, alice.jpg]` return `alice.jpg` — pattern
order wins over blob order. -/
theorem student_matcher_pattern_order_witness :
    findFirstMatch ["*alice*", "*bob*"] ["bob.jpg", "alice.jpg"]
      = some "alice.jpg" :=
  student_matcher_pattern_order [] "*alice*" ["*bob*"]
    ["bob.jpg", "alice.jpg"] "alice.jpg"
    (by intro q hq; exact absurd hq (List.not_mem_nil q)) (by decide)

/-- C4 counterexample: the candidate sequence for the student name
`"Ali Khan"` that is actually matched against the listing is NOT
deduplicated — the pattern `*ali*` occurs three times in it
(`f"*{first_name}*"` is even written twice in the source list), so the
claim that no pattern string occurs twice fails. -/
theorem c4_duplicate_patterns_counterexample :
    ¬ (patterns_to_try "Ali Khan").Nodup ∧
      (patterns_to_try "Ali Khan").count "*ali*" = 3 := by decide

/-- C4 amended: the candidate sequence is only filtered of empty strings
(so no empty pattern is ever matched), but it is not deduplicated: an
identical later pattern is kept and re-run, e.g. `*ali*` occurs three times
for the name `Ali Khan`. -/
theorem c4_filter_not_dedup :
    (∀ name : String, "" ∉ patterns_to_try name) ∧
      (patterns_to_try "Ali Khan").count "*ali*" = 3 := by
  constructor
  · intro name h
    unfold patterns_to_try at h
    have h2 := List.of_mem_filter h
    simp at h2
  · decide

/-- Witness for C4 amended at the concrete name `Ali Khan`. -/
theorem c4_filter_not_dedup_witness : "" ∉ patterns_to_try "Ali Khan" :=
  c4_filter_not_dedup.1 "Ali Khan"

/-- C5 counterexample: the whitespace-only student name `" "` is truthy in
Python, so pattern generation runs and produces the wildcard-only pattern
`**` (from `f"*{first_name}*"` with an empty `first_name`), which matches
every filename — refuting the claim that wildcard-only patterns are never
produced for whitespace-only names. -/
theorem c5_wildcard_only_counterexample :
    WildcardOnly "**" ∧ "**" ∈ patterns_to_try " " := by decide

/-- C5 amended: project-side pattern generation never produces a
wildcard-only pattern (every candidate carries the literal `projects/`
prefix), and an empty or absent student name produces no patterns at all
(the resolver returns `None` before generating any); but a whitespace-only
nonempty student name does produce wildcard-only patterns. -/
theorem c5_no_wildcard_only_amended :
    (∀ (pd : ProjectData), ∀ p ∈ project_patterns pd, ¬ WildcardOnly p) ∧
      (∀ blobs : List String, get_student_image_path blobs "" = none) := by
  constructor
  · intro pd p hp
    simp only [project_patterns, List.mem_cons, List.not_mem_nil, or_false] at hp
    rcases hp with rfl | rfl | rfl | rfl | rfl | rfl | rfl | rfl | rfl | rfl
      | rfl | rfl | rfl
    · exact not_wildcardOnly_of_p "projects/" _ _ (by decide)
    · exact not_wildcardOnly_of_p "projects/" _ _ (by decide)
    · exact not_wildcardOnly_of_p "projects/project_" _ _ (by decide)
    · exact not_wildcardOnly_of_p "projects/project_" _ _ (by decide)
    · exact not_wildcardOnly_of_p "projects/" _ _ (by decide)
    · exact not_wildcardOnly_of_p "projects/" _ _ (by decide)
    · exact not_wildcardOnly_of_p "projects/" _ _ (by decide)
    · exact not_wildcardOnly_of_p "projects/" _ _ (by decide)
    · exact not_wildcardOnly_of_p "projects/*" _ _ (by decide)
    · exact not_wildcardOnly_of_p "projects/*" _ _ (by decide)
    · exact (by decide : ¬ WildcardOnly "projects/dec cap vale.png")
    · exact (by decide : ¬ WildcardOnly "projects/IOTbasedRealTimeApp.jpg")
    · exact (by decide : ¬ WildcardOnly "projects/Scratch.png")
  · intro blobs
    rfl

/-- Witness for C5 amended: the first candidate for a project with id `p1`
is not wildcard-only. -/
theorem c5_no_wildcard_only_amended_witness :
    ¬ WildcardOnly "projects/p1.jpg" :=
  c5_no_wildcard_only_amended.1 ⟨some "p1", some "T", none⟩
    "projects/p1.jpg" (by decide)

/-- C6: the filename normalizers are total Lean functions (hence
deterministic and never raising), and every empty or absent input yields the
fixed sentinel `"unknown"`, both for `clean_filename` and for
`sanitize_filename_for_storage`. -/
theorem clean_filename_sentinel (s : Option String)
    (h : s = none ∨ s = some "") :
    clean_filename s = "unknown" ∧
      sanitize_filename_for_storage s = "unknown" := by
  rcases h with rfl | rfl <;> exact ⟨rfl, rfl⟩

/-- Witness for C6 at the absent input. -/
theorem clean_filename_sentinel_witness :
    clean_filename none = "unknown" ∧
      sanitize_filename_for_storage none = "unknown" :=
  clean_filename_sentinel none (Or.inl rfl)

/-- C9: the scaling computation is a pure function of
`(width, height, maxWidth, maxHeight)`; on `(2000, 1000)` with box `4 × 3`
it returns `(4, 2)` (aspect preserved, width-bound), and on `(1000, 2000)`
with the same box it returns `(1.5, 3)`. -/
theorem resize_concrete_values :
    resize_image_for_docx 2000 1000 4 3 = (4, 2) ∧
      resize_image_for_docx 1000 2000 4 3 = (3 / 2, 3) := by
  constructor <;> norm_num [resize_image_for_docx]

/-- C2 counterexample: a batch of 50 students named `Ali Khan` triggers 50
`students/`-listing calls, not one — `get_student_image_path` performs its
own `list_blobs(bucket, prefix="students/")` on every invocation. -/
theorem c2_batch_listing_counterexample :
    (team_photos_listing_log []
        (List.replicate 50 (⟨some "Ali Khan"⟩ : Student))).length = 50 ∧
      (team_photos_listing_log []
        (List.replicate 50 (⟨some "Ali Khan"⟩ : Student))).length ≠ 1 := by
  decide

/-- C2 amended: the `students/` listing is fetched once per student image
resolution rather than once per batch: for every store and batch, the number
of listing calls equals the number of students whose effective name
(`student.get('name', 'Unknown')`) is non-empty; a batch of 50 such students
triggers exactly 50 listing calls. -/
theorem c2_listing_per_student (store : List String)
    (students : List Student) :
    (team_photos_listing_log store students).length
      = (students.filter (fun s => s.name.getD "Unknown" != "")).length := by
  induction students with
  | nil => rfl
  | cons s rest ih =>
    simp only [team_photos_listing_log, student_resolve_with_log,
      List.filter_cons]
    by_cases h : s.name.getD "Unknown" = ""
    · simp [h, ih]
    · simp [h, ih]

/-- A list of the shape `xs ++ '/' :: ys` has the same last path segment as
`ys`: the scan resets at the separator. -/
theorem lastSeg_append_slash (xs ys : List Char) :
    lastSeg (xs ++ '/' :: ys) = lastSeg ys := by
  unfold lastSeg
  rw [List.foldl_append, List.foldl_cons]
  have h : lastSegStep (List.foldl lastSegStep [] xs) '/' = [] := by
    simp [lastSegStep]
  rw [h]

/-- C3 counterexample: in the project resolver's wildcard step the pattern is
matched against the blob's FULL storage path, not its base filename: the
generated pattern `projects/*RoboticsLa*.jpg` (for title `Robotics Lab`)
retrieves the blob `projects/RoboticsLab.jpg` through `wildcard_scan`, while
the spec-worded base-filename case-insensitive matcher finds no match on the
same store, listing and pattern. -/
theorem c3_fullpath_counterexample :
    "projects/*RoboticsLa*.jpg"
        ∈ project_patterns ⟨some "px", some "Robotics Lab", none⟩ ∧
      wildcard_scan store_c3 "projects/*RoboticsLa*.jpg"
        ["projects/RoboticsLab.jpg"] = some [3] ∧
      spec_base_ci_scan store_c3 "projects/*RoboticsLa*.jpg"
        ["projects/RoboticsLab.jpg"] = none := by
  decide

/-- C3 amended: in the student resolver the comparison really is against the
lowercased base filename only — the directory part of the blob's storage
path is irrelevant to the match — but in the project resolver's wildcard
step the pattern is matched case-sensitively against the blob's full
storage path (the generated wildcard patterns carry the `projects/` prefix
themselves), so a lowercased variant of the pattern fails against a
mixed-case full path. -/
theorem c3_matching_scope :
    (∀ d b pat : String,
        studentMatches (d ++ "/" ++ b) pat = studentMatches b pat) ∧
      wildcard_scan store_c3 "projects/*roboticsla*.jpg"
        ["projects/RoboticsLab.jpg"] = none ∧
      studentMatches "projects/RoboticsLab.jpg" "*roboticsla*" = true := by
  refine ⟨?_, by decide, by decide⟩
  intro d b pat
  unfold studentMatches
  congr 1
  have hdata : ((d ++ "/") ++ b).data = d.data ++ '/' :: b.data := by
    rw [String.data_append, String.data_append]
    show (d.data ++ ['/']) ++ b.data = _
    rw [← List.append_cons]
  simp only [hdata, List.map_append, List.map_cons]
  rw [show Char.toLower '/' = '/' from rfl]
  exact lastSeg_append_slash _ _

/-- C7 counterexample: a genuinely double-URL-encoded stored reference does
NOT resolve after two decode attempts.  The raw asset
`projects/my img.jpg` exists, but the first pass leaves the double-encoded
path untouched (no literal `%2F`/`%20` occurs in it) and the full
percent-decoding pass strips only one encoding level, yielding the still
single-encoded `projects%2Fmy%20img.jpg`; both retrievals fail and the
explicit-reference branch returns no image. -/
theorem c7_double_encoded_counterexample :
    store_c7a "projects/my img.jpg" = some [7] ∧
      image_path_from_url
        "https://firebasestorage.googleapis.com/v0/b/bkt/o/projects%252Fmy%2520img.jpg?alt=media"
        = "projects%252Fmy%2520img.jpg" ∧
      (⟨unquoteL "projects%252Fmy%2520img.jpg".data⟩ : String)
        = "projects%2Fmy%20img.jpg" ∧
      project_url_attempt store_c7a pd_c7a = none := by
  decide

/-- C7 amended: the resolver first reverses the path-segment separator and
space encodings and attempts retrieval, and only on failure applies one full
percent-decoding pass and retries exactly once; the reference that resolves
on exactly the second attempt and not the first is one whose blob name
itself still contains one level of percent-escapes after the first pass
(here the blob literally named `projects/my%20img.jpg`), whereas a genuinely
double-URL-encoded reference resolves on neither attempt. -/
theorem c7_second_decode_pass :
    download_image_from_storage store_c7b
        (image_path_from_url
          "https://firebasestorage.googleapis.com/v0/b/bkt/o/projects%2Fmy%2520img.jpg?alt=media")
        = none ∧
      (⟨unquoteL (image_path_from_url
          "https://firebasestorage.googleapis.com/v0/b/bkt/o/projects%2Fmy%2520img.jpg?alt=media").data⟩
        : String) = "projects/my%20img.jpg" ∧
      project_url_attempt store_c7b pd_c7b = some [9] := by
  decide

/-- C8: when the explicit-reference branch yields nothing and no candidate
pattern retrieval succeeds, the project resolver returns exactly the store's
content at the fixed default asset path `projects/default_project.jpg`: the
default's bytes when it exists, and the explicit `none` absence value (never
an exception — the embedding is a total function, mirroring the
catch-everything `download_image_from_storage`) when it is missing or its
retrieval fails. -/
theorem project_default_fallback (store : BlobStore) (listing : List String)
    (pd : ProjectData)
    (h1 : project_url_attempt store pd = none)
    (h2 : try_patterns store listing (project_patterns pd) = none) :
    get_project_image store listing pd
      = store "projects/default_project.jpg" := by
  simp only [get_project_image, h1, h2, download_image_from_storage]
  rw [if_neg (by decide : ¬("projects/default_project.jpg" = ""))]

/-- Witness for C8: a project with no image reference against a store
holding only the default asset resolves to the default asset's bytes. -/
theorem project_default_fallback_witness :
    get_project_image store_c8 [] pd_c8
        = store_c8 "projects/default_project.jpg" ∧
      store_c8 "projects/default_project.jpg" = some [1] :=
  ⟨project_default_fallback store_c8 [] pd_c8 rfl (by decide), by decide⟩

/-- C10: the scaling computation is total — the model is a total function
and the `ZeroDivisionError` path (zero pixel height) returns the fixed
fallback `(1.5, 1.5)` — and bounded: for positive pixel dimensions and
positive box limits the returned render width never exceeds `max_width` and
the returned render height never exceeds `max_height`. -/
theorem resize_total_bounded (w h mw mh : ℚ)
    (hw : 0 < w) (hh : 0 < h) (hmw : 0 < mw) (hmh : 0 < mh) :
    (resize_image_for_docx w h mw mh).1 ≤ mw ∧
      (resize_image_for_docx w h mw mh).2 ≤ mh ∧
      resize_image_for_docx w 0 mw mh = (3 / 2, 3 / 2) := by
  have haspect : 0 < w / h := div_pos hw hh
  have hminw : min mw (w / 100) ≤ mw := min_le_left _ _
  have hminh : min mh (h / 100) ≤ mh := min_le_left _ _
  refine ⟨?_, ?_, by simp [resize_image_for_docx]⟩ <;>
    simp only [resize_image_for_docx, if_neg hh.ne'] <;>
    split_ifs with hA hB hC <;>
      first
        | linarith
        | · have := (lt_div_iff₀ haspect).mp (by assumption)
            linarith

/-- Witness for C10 at the concrete input `(2000, 1000)` with box `4 × 3`. -/
theorem resize_total_bounded_witness :
    (resize_image_for_docx 2000 1000 4 3).1 ≤ 4 ∧
      (resize_image_for_docx 2000 1000 4 3).2 ≤ 3 ∧
      resize_image_for_docx 2000 0 4 3 = (3 / 2, 3 / 2) :=
  resize_total_bounded 2000 1000 4 3 (by norm_num) (by norm_num)
    (by norm_num) (by norm_num)
